import Mathlib

/-!
Shallow embedding of `windPattern_roseWind.py` (class `WindAnalyzer`) and
verification of its specification.

Modelling conventions:
* A pandas DataFrame row becomes a `Record`; a null (NaN) cell of the
  `direcao` / `velocidade` / `altura` columns is `Option.none`.
* Finite float values are modelled by exact rationals (`ℚ`); quantities that
  pass through transcendental functions (`log`, `sin`, `cos`, `arctan2`,
  `sqrt`) live in `ℝ`.
* numpy / pandas produce NaN or ±inf instead of raising on empty means,
  zero division of numpy scalars and logs of non-positive numbers; where a
  claim depends on this the extended value domains `ExtQ` / `ExtR` (finite,
  +inf, -inf, NaN) model it explicitly.
* `scipy.stats.weibull_min.fit` is an external numerical routine; it is
  abstracted as a parameter `fitW : List ℚ → ℚ × ℚ` returning the fitted
  shape `k` and scale `c` for a list of speed samples.
-/

namespace WindRose

/-- Python float modulo: `q % m = q - m * ⌊q / m⌋`.  The result takes the
sign of the divisor; for `m > 0` it lies in `[0, m)`.  Models
`self.dados['direcao'] % 360` (over `ℚ`) and the final
`(np.rad2deg(media_rad) + 360) % 360` (over `ℝ`). -/
def pymod {α : Type _} [LinearOrderedField α] [FloorRing α] (q m : α) : α :=
  q - m * ⌊q / m⌋

/-- One row of the wind DataFrame.  The timestamp column `data` is not
modelled (no claim depends on it); `altura` is the optional measurement
height used only by the shear analysis. -/
structure Record where
  estacao : String
  direcao : Option ℚ
  velocidade : Option ℚ
  altura : Option ℚ
deriving DecidableEq, Repr

/-- `_preprocess_data`: drop rows whose direction or speed is null
(`dropna(subset=['direcao','velocidade'])`), reduce every direction modulo
360, then keep only rows with speed `>= 0`.  A null speed compares as
`False` in pandas, matching the `none => false` branch. -/
def preprocessData (dados : List Record) : List Record :=
  ((dados.filter fun r => r.direcao.isSome && r.velocidade.isSome).map
    (fun r => { r with direcao := r.direcao.map (fun d => pymod d 360) })).filter
    fun r =>
      match r.velocidade with
      | some v => decide (0 ≤ v)
      | none => false

/-- The divisor-sign floor modulo lands in `[0, m)` for a positive modulus. -/
theorem pymod_nonneg {α : Type _} [LinearOrderedField α] [FloorRing α]
    (q m : α) (hm : 0 < m) : 0 ≤ pymod q m := by
  have h2 : (⌊q / m⌋ : α) * m ≤ q := by
    have := mul_le_mul_of_nonneg_right (Int.floor_le (q / m)) hm.le
    rwa [div_mul_cancel₀ q hm.ne'] at this
  unfold pymod
  nlinarith

theorem pymod_lt {α : Type _} [LinearOrderedField α] [FloorRing α]
    (q m : α) (hm : 0 < m) : pymod q m < m := by
  have h2 : q < ((⌊q / m⌋ : α) + 1) * m := by
    have := mul_lt_mul_of_pos_right (Int.lt_floor_add_one (q / m)) hm
    rwa [div_mul_cancel₀ q hm.ne'] at this
  unfold pymod
  nlinarith

/-- Invariant of the preprocessed data, shared by several proofs. -/
theorem mem_preprocessData (dados : List Record) (r : Record)
    (hr : r ∈ preprocessData dados) :
    ∃ d v, r.direcao = some d ∧ 0 ≤ d ∧ d < 360 ∧
      r.velocidade = some v ∧ 0 ≤ v := by
  unfold preprocessData at hr
  rw [List.mem_filter] at hr
  obtain ⟨hmem, hvel⟩ := hr
  rw [List.mem_map] at hmem
  obtain ⟨r₀, hr₀, rfl⟩ := hmem
  rw [List.mem_filter] at hr₀
  obtain ⟨-, hsome⟩ := hr₀
  rw [Bool.and_eq_true, Option.isSome_iff_exists, Option.isSome_iff_exists] at hsome
  obtain ⟨⟨d₀, hd₀⟩, v₀, hv₀⟩ := hsome
  refine ⟨pymod d₀ 360, v₀, ?_, ?_, ?_, ?_, ?_⟩
  · simp [hd₀]
  · exact pymod_nonneg d₀ 360 (by norm_num)
  · exact pymod_lt d₀ 360 (by norm_num)
  · simpa using hv₀
  · simp only [hv₀] at hvel
    exact of_decide_eq_true hvel

/-- **C7.**  After preprocessing, every surviving record has a non-null
direction lying in `[0, 360)` and a non-null, non-negative speed; rows with
a null direction or speed, and rows with negative speed, are excluded, and
preprocessing is a total function (it raises no error). -/
theorem preprocessData_invariant (dados : List Record) (r : Record)
    (hr : r ∈ preprocessData dados) :
    ∃ d v, r.direcao = some d ∧ 0 ≤ d ∧ d < 360 ∧
      r.velocidade = some v ∧ 0 ≤ v :=
  mem_preprocessData dados r hr

/-- Witness for C7 at a concrete raw dataset: a row with direction 400
(normalised to 40) and speed 3 survives; a null-speed row and a
negative-speed row are dropped. -/
theorem preprocessData_invariant_witness :
    (⟨"A", some 40, some 3, none⟩ : Record) ∈ preprocessData
      [⟨"A", some 400, some 3, none⟩, ⟨"A", some 10, none, none⟩,
       ⟨"A", some 10, some (-1), none⟩] ∧
    ∃ d v, (Record.mk "A" (some 40) (some 3) none).direcao = some d ∧
      0 ≤ d ∧ d < 360 ∧
      (Record.mk "A" (some 40) (some 3) none).velocidade = some v ∧ 0 ≤ v := by
  have hmem : (⟨"A", some 40, some 3, none⟩ : Record) ∈ preprocessData
      [⟨"A", some 400, some 3, none⟩, ⟨"A", some 10, none, none⟩,
       ⟨"A", some 10, some (-1), none⟩] := by
    unfold preprocessData
    simp [pymod]
    norm_num
  exact ⟨hmem, preprocessData_invariant _ _ hmem⟩

/-! ## Statistics engine (`calcular_estatisticas`, `_calcular_direcao_media`) -/

/-- `Series.mean()`: `none` models the NaN that pandas returns on an empty
selection. -/
def meanQ (l : List ℚ) : Option ℚ :=
  match l with
  | [] => none
  | _ :: _ => some (l.sum / l.length)

/-- Real-valued mean with the same NaN-on-empty behaviour. -/
noncomputable def meanR (l : List ℝ) : Option ℝ :=
  match l with
  | [] => none
  | _ :: _ => some (l.sum / l.length)

/-- `np.deg2rad`. -/
noncomputable def deg2rad (d : ℝ) : ℝ := d * Real.pi / 180

/-- `np.rad2deg`. -/
noncomputable def rad2deg (r : ℝ) : ℝ := r * 180 / Real.pi

/-- `np.arctan2 y x`, the argument of the complex number `x + y*I`
(range `(-π, π]`). -/
noncomputable def arctan2 (y x : ℝ) : ℝ := Complex.arg ⟨x, y⟩

/-- `_calcular_direcao_media`: radians, separate sine/cosine means,
`arctan2`, back to degrees, normalised into `[0, 360)`.  On an empty series
both component means are NaN (`none`) and the result is NaN. -/
noncomputable def direcao_media (direcoes : List ℝ) : Option ℝ :=
  let radianos := direcoes.map deg2rad
  match meanR (radianos.map Real.sin), meanR (radianos.map Real.cos) with
  | some media_sen, some media_cos =>
      some (pymod (rad2deg (arctan2 media_sen media_cos) + 360) 360)
  | _, _ => none

/-- Sample variance with `ddof = 1` (the pandas `Series.std()` default);
NaN (`none`) on fewer than two samples, matching the float `0/0`. -/
def varS (l : List ℚ) : Option ℚ :=
  match l with
  | [] => none
  | [_] => none
  | _ :: _ :: _ =>
    let n : ℚ := l.length
    let μ : ℚ := l.sum / n
    some ((l.map fun v => (v - μ) ^ 2).sum / (n - 1))

/-- `Series.std()`: square root of the `ddof = 1` sample variance. -/
noncomputable def stdS (l : List ℚ) : Option ℝ :=
  (varS l).map fun q => Real.sqrt (q : ℝ)

/-- The `estacao` filter shared by the statistics, fit and plot methods:
`self.dados if estacao is None else self.dados[self.dados['estacao'] == estacao]`. -/
def filtrarEstacao (dados : List Record) (estacao : Option String) : List Record :=
  match estacao with
  | none => dados
  | some e => dados.filter fun r => decide (r.estacao = e)

/-- The dictionary returned by `calcular_estatisticas`.  `none` models a
non-finite (NaN / ±inf) float entry. -/
structure Estatisticas where
  media_velocidade : Option ℚ
  max_velocidade : Option ℚ
  min_velocidade : Option ℚ
  desvio_velocidade : Option ℝ
  media_direcao : Option ℝ
  frequencia_calmar : Option ℚ
  turbulencia : Option ℝ

/-- `calcular_estatisticas`: descriptive statistics over the (optionally
station-filtered) prepared data.  `frequencia_calmar` is the mean of the
indicator of `velocidade < 0.5`; `turbulencia` is `std / mean`, which in the
source is a non-finite float (modelled `none`) when the mean is zero. -/
noncomputable def calcular_estatisticas (dadosAll : List Record)
    (estacao : Option String) : Estatisticas :=
  let dados := filtrarEstacao dadosAll estacao
  let vels := dados.filterMap fun r => r.velocidade
  let dirs := dados.filterMap fun r => r.direcao
  { media_velocidade := meanQ vels
    max_velocidade := vels.max?
    min_velocidade := vels.min?
    desvio_velocidade := stdS vels
    media_direcao := direcao_media (dirs.map fun q => (q : ℝ))
    frequencia_calmar := meanQ (vels.map fun v => if v < 1 / 2 then 1 else 0)
    turbulencia :=
      match stdS vels, meanQ vels with
      | some s, some m => if m = 0 then none else some (s / (m : ℝ))
      | _, _ => none }

/-- **C10.**  When the station filter matches no record, every field of the
returned statistics dictionary is the non-finite value computed from the
empty selection (`none`, the NaN marker), and the call is a total function
(it raises nothing). -/
theorem calcular_estatisticas_no_match (dados : List Record) (est : String)
    (h : dados.filter (fun r => decide (r.estacao = est)) = []) :
    calcular_estatisticas dados (some est) =
      { media_velocidade := none, max_velocidade := none,
        min_velocidade := none, desvio_velocidade := none,
        media_direcao := none, frequencia_calmar := none,
        turbulencia := none } := by
  simp [calcular_estatisticas, filtrarEstacao, h, meanQ, stdS, varS,
    direcao_media, meanR]

/-- Witness for C10: a dataset holding only station `B`, queried for the
absent station `A`. -/
theorem calcular_estatisticas_no_match_witness :
    (([⟨"B", some 10, some 1, none⟩] : List Record).filter
        (fun r => decide (r.estacao = "A")) = []) ∧
    calcular_estatisticas [⟨"B", some 10, some 1, none⟩] (some "A") =
      { media_velocidade := none, max_velocidade := none,
        min_velocidade := none, desvio_velocidade := none,
        media_direcao := none, frequencia_calmar := none,
        turbulencia := none } :=
  ⟨by rfl, calcular_estatisticas_no_match _ _ (by rfl)⟩

/-- **C4.**  The circular mean follows the sine/cosine–`arctan2` recipe and
is normalised into `[0, 360)` whenever it is defined; preparation sends the
direction 360° to 0° (`pymod`), and the circular mean of the resulting
multiset {0°, 0°} is exactly 0°, not 180°. -/
theorem direcao_media_spec :
    (∀ l : List ℝ, ∀ x : ℝ, direcao_media l = some x → 0 ≤ x ∧ x < 360) ∧
    pymod (360 : ℚ) 360 = 0 ∧
    direcao_media [(0 : ℝ), 0] = some 0 := by
  refine ⟨?_, ?_, ?_⟩
  · intro l x h
    simp only [direcao_media] at h
    split at h
    · rename_i media_sen media_cos _ _
      obtain rfl : pymod (rad2deg (arctan2 media_sen media_cos) + 360) 360 = x :=
        Option.some_injective _ h
      exact ⟨pymod_nonneg _ _ (by norm_num), pymod_lt _ _ (by norm_num)⟩
    · exact absurd h (by simp)
  · have h1 : ((360 : ℚ) / 360) = 1 := by norm_num
    rw [pymod, h1, Int.floor_one]
    norm_num
  · have hdr : deg2rad 0 = 0 := by simp [deg2rad]
    have harg : arctan2 0 1 = 0 := by
      have h1 : (⟨1, 0⟩ : ℂ) = 1 := by
        apply Complex.ext <;> simp
      rw [arctan2, h1, Complex.arg_one]
    have hmod : pymod ((360 : ℝ)) 360 = 0 := by
      have h1 : (((360 : ℝ)) / 360) = 1 := by norm_num
      rw [pymod, h1, Int.floor_one]
      norm_num
    simp only [direcao_media, List.map_cons, List.map_nil, hdr, Real.sin_zero,
      Real.cos_zero, meanR, List.sum_cons, List.sum_nil, List.length_cons,
      List.length_nil]
    norm_num [harg, rad2deg, hmod]

/-- Witness for C4's bounded-normalisation clause at the concrete list
`[0, 0]`, whose circular mean the theorem itself computes. -/
theorem direcao_media_spec_witness :
    direcao_media [(0 : ℝ), 0] = some 0 ∧ (0 : ℝ) ≤ 0 ∧ (0 : ℝ) < 360 :=
  ⟨direcao_media_spec.2.2,
    direcao_media_spec.1 [(0 : ℝ), 0] 0 direcao_media_spec.2.2⟩

/-! ## Sector model (`ajustar_distribuicao_weibull`) -/

/-- `np.linspace(0, 360, setores + 1)` evaluated at index `i`: the
arithmetic progression `i * (360 / setores)`. -/
def limites (setores i : ℕ) : ℚ := 360 * i / setores

/-- Sector membership from the fit loop: half-open
`limites[i] <= d < limites[i+1]` for every sector except the last, closed
`limites[last] <= d <= limites[setores]` for the last one. -/
def pertenceSetor (setores i : ℕ) (d : ℚ) : Bool :=
  if i = setores - 1 then
    decide (limites setores i ≤ d) && decide (d ≤ limites setores (i + 1))
  else
    decide (limites setores i ≤ d) && decide (d < limites setores (i + 1))

/-- The row-level mask `(dados['direcao'] >= lo) & (dados['direcao'] < hi)`:
a null direction compares as `False` in pandas. -/
def pertenceSetorRec (setores i : ℕ) (r : Record) : Bool :=
  match r.direcao with
  | some d => pertenceSetor setores i d
  | none => false

/-- `dados[mascara]`: the rows of one directional sector. -/
def setorRecs (dados : List Record) (setores i : ℕ) : List Record :=
  dados.filter (pertenceSetorRec setores i)

/-- Equal sector width: consecutive `linspace` boundaries differ by
`360 / setores`. -/
theorem limites_width (setores i : ℕ) :
    limites setores (i + 1) - limites setores i = 360 / setores := by
  unfold limites
  rw [div_sub_div_same]
  congr 1
  push_cast
  ring

/-- For a direction in `[0, 360)` and a sector index `i < setores`,
membership in sector `i` is exactly `⌊d * setores / 360⌋ = i`. -/
theorem pertenceSetor_iff_floor (setores : ℕ) (hN : 1 ≤ setores) (d : ℚ)
    (h0 : 0 ≤ d) (h1 : d < 360) (i : ℕ) (hi : i < setores) :
    pertenceSetor setores i d = true ↔ ⌊d * setores / 360⌋ = (i : ℤ) := by
  have hNQ : (0 : ℚ) < setores := by exact_mod_cast hN
  have h360 : (0 : ℚ) < 360 := by norm_num
  have hlow : ∀ j : ℕ, (limites setores j ≤ d ↔ (j : ℚ) ≤ d * setores / 360) := by
    intro j
    unfold limites
    rw [div_le_iff₀ hNQ, le_div_iff₀ h360]
    constructor <;> intro h <;> nlinarith
  have hhigh : ∀ j : ℕ, (d < limites setores j ↔ d * setores / 360 < (j : ℚ)) := by
    intro j
    unfold limites
    rw [lt_div_iff₀ hNQ, div_lt_iff₀ h360]
    constructor <;> intro h <;> nlinarith
  have hxN : d * setores / 360 < setores := by
    rw [div_lt_iff₀ h360]
    nlinarith
  by_cases hlast : i = setores - 1
  · subst hlast
    have hcast : ((setores - 1 : ℕ) : ℚ) = (setores : ℚ) - 1 := by
      rw [Nat.cast_sub hN, Nat.cast_one]
    unfold pertenceSetor
    rw [if_pos rfl]
    simp only [Bool.and_eq_true, decide_eq_true_eq]
    constructor
    · rintro ⟨hlo, -⟩
      rw [hlow, hcast] at hlo
      rw [Int.floor_eq_iff]
      constructor
      · push_cast [hcast]
        linarith
      · push_cast [hcast]
        linarith
    · intro hfl
      have hle : ((setores - 1 : ℕ) : ℚ) ≤ d * setores / 360 := by
        have h := Int.floor_le (d * setores / 360)
        rw [hfl] at h
        exact_mod_cast h
      refine ⟨(hlow _).mpr hle, ?_⟩
      have h2 : limites setores (setores - 1 + 1) = 360 := by
        rw [Nat.sub_add_cancel hN]
        unfold limites
        field_simp
      rw [h2]
      exact h1.le
  · unfold pertenceSetor
    rw [if_neg hlast]
    simp only [Bool.and_eq_true, decide_eq_true_eq]
    rw [hlow, hhigh, Int.floor_eq_iff]
    push_cast
    tauto

/-- Every direction in `[0, 360)` belongs to exactly one of the `setores`
sectors. -/
theorem existsUnique_pertenceSetor (setores : ℕ) (hN : 1 ≤ setores) (d : ℚ)
    (h0 : 0 ≤ d) (h1 : d < 360) :
    ∃! i, i < setores ∧ pertenceSetor setores i d = true := by
  have hNQ : (0 : ℚ) < setores := by exact_mod_cast hN
  have hx0 : 0 ≤ d * setores / 360 :=
    div_nonneg (mul_nonneg h0 hNQ.le) (by norm_num)
  have hxN : d * setores / 360 < setores := by
    rw [div_lt_iff₀ (by norm_num : (0 : ℚ) < 360)]
    nlinarith
  have hfl0 : 0 ≤ ⌊d * setores / 360⌋ := Int.floor_nonneg.mpr hx0
  have hflN : ⌊d * setores / 360⌋ < (setores : ℤ) := by
    rw [Int.floor_lt]
    exact_mod_cast hxN
  refine ⟨⌊d * setores / 360⌋.toNat, ⟨by omega, ?_⟩, ?_⟩
  · rw [pertenceSetor_iff_floor setores hN d h0 h1 _ (by omega)]
    omega
  · rintro j ⟨hj, hmem⟩
    rw [pertenceSetor_iff_floor setores hN d h0 h1 j hj] at hmem
    omega

/-- Each record whose direction lies in `[0, 360)` is counted by exactly one
sector mask, so the sector counts add up to the dataset size. -/
theorem sum_setor_counts (setores : ℕ) (hN : 1 ≤ setores) (l : List Record)
    (hl : ∀ r ∈ l, ∃ d, r.direcao = some d ∧ 0 ≤ d ∧ d < 360) :
    ∑ i ∈ Finset.range setores,
      (l.filter (pertenceSetorRec setores i)).length = l.length := by
  induction l with
  | nil => simp
  | cons a l ih =>
    obtain ⟨d, hd, hd0, hd1⟩ := hl a (List.mem_cons_self a l)
    have hrest : ∀ r ∈ l, ∃ d, r.direcao = some d ∧ 0 ≤ d ∧ d < 360 :=
      fun r hr => hl r (List.mem_cons_of_mem a hr)
    obtain ⟨j, ⟨hjN, hjmem⟩, hjuniq⟩ :=
      existsUnique_pertenceSetor setores hN d hd0 hd1
    have hmask : ∀ i, pertenceSetorRec setores i a = pertenceSetor setores i d := by
      intro i
      simp [pertenceSetorRec, hd]
    have hsplit : ∀ i, (List.filter (pertenceSetorRec setores i) (a :: l)).length =
        (List.filter (pertenceSetorRec setores i) l).length +
          (if pertenceSetorRec setores i a = true then 1 else 0) := by
      intro i
      rw [List.filter_cons]
      split
      · simp [Nat.add_comm]
      · simp
    rw [Finset.sum_congr rfl fun i _ => hsplit i, Finset.sum_add_distrib, ih hrest]
    have hone : ∑ i ∈ Finset.range setores,
        (if pertenceSetorRec setores i a = true then 1 else 0) = 1 := by
      rw [Finset.sum_eq_single j]
      · simp [hmask, hjmem]
      · intro b hb hbj
        rw [hmask b]
        by_cases hbm : pertenceSetor setores b d = true
        · exact absurd (hjuniq b ⟨Finset.mem_range.mp hb, hbm⟩) hbj
        · simp [hbm]
      · intro hj'
        exact absurd (Finset.mem_range.mpr hjN) hj'
    rw [hone]
    simp

/-- **C1.**  For every sector count `N >= 1`: the `linspace(0, 360, N+1)`
boundaries cut `[0, 360]` into `N` intervals of equal width `360 / N`; every
direction in `[0, 360)` satisfies the membership rule (half-open below the
last sector, closed for the last) of exactly one sector; and over any
prepared, station-filtered dataset the per-sector sample counts sum to the
dataset size. -/
theorem setores_spec (setores : ℕ) (hN : 1 ≤ setores) :
    (∀ i : ℕ, limites setores (i + 1) - limites setores i = 360 / setores) ∧
    (∀ d : ℚ, 0 ≤ d → d < 360 →
      ∃! i, i < setores ∧ pertenceSetor setores i d = true) ∧
    (∀ raw : List Record, ∀ estacao : Option String,
      ∑ i ∈ Finset.range setores,
        (setorRecs (filtrarEstacao (preprocessData raw) estacao) setores i).length =
        (filtrarEstacao (preprocessData raw) estacao).length) := by
  refine ⟨fun i => limites_width setores i,
    fun d h0 h1 => existsUnique_pertenceSetor setores hN d h0 h1, ?_⟩
  intro raw estacao
  simp only [setorRecs]
  apply sum_setor_counts setores hN
  intro r hr
  have hr' : r ∈ preprocessData raw := by
    cases estacao with
    | none => simpa [filtrarEstacao] using hr
    | some e =>
      simp only [filtrarEstacao] at hr
      exact List.mem_of_mem_filter hr
  obtain ⟨d, v, hd, h0, h1, -, -⟩ := mem_preprocessData raw r hr'
  exact ⟨d, hd, h0, h1⟩

/-- Witness for C1 at `N = 4`, direction 90°, and a two-row dataset. -/
theorem setores_spec_witness :
    (1 ≤ 4) ∧
    (limites 4 (0 + 1) - limites 4 0 = 360 / 4) ∧
    (∃! i, i < 4 ∧ pertenceSetor 4 i 90 = true) ∧
    (∑ i ∈ Finset.range 4,
        (setorRecs (filtrarEstacao (preprocessData
          [⟨"A", some 45, some 2, none⟩, ⟨"A", some 100, some 3, none⟩])
          (some "A")) 4 i).length =
      (filtrarEstacao (preprocessData
          [⟨"A", some 45, some 2, none⟩, ⟨"A", some 100, some 3, none⟩])
          (some "A")).length) :=
  ⟨by norm_num,
   (setores_spec 4 (by norm_num)).1 0,
   (setores_spec 4 (by norm_num)).2.1 90 (by norm_num) (by norm_num),
   (setores_spec 4 (by norm_num)).2.2 _ (some "A")⟩

/-- One fitted entry `{'k': shape, 'c': scale, 'frequencia': ...}` of the
Weibull dictionary. -/
structure WParams where
  k : ℚ
  c : ℚ
  frequencia : ℚ
deriving DecidableEq, Repr

/-- The body of one iteration of the fit loop: `none` when the sector holds
at most 10 samples, otherwise the fitted parameters with
`frequencia = len(dados_setor) / len(dados)`.  `fitW` abstracts the external
`weibull_min.fit(dados_setor, floc=0)`, returning `(shape, scale)`; on
prepared data every speed cell is non-null, so `filterMap` collects exactly
the sector's speed column. -/
def setorParam (fitW : List ℚ → ℚ × ℚ) (dados : List Record)
    (setores i : ℕ) : Option WParams :=
  let dados_setor := setorRecs dados setores i
  if 10 < dados_setor.length then
    some { k := (fitW (dados_setor.filterMap fun r => r.velocidade)).1
           c := (fitW (dados_setor.filterMap fun r => r.velocidade)).2
           frequencia := (dados_setor.length : ℚ) / (dados.length : ℚ) }
  else none

/-- The dictionary built by `ajustar_distribuicao_weibull`: the Python dict
keyed by `f'setor_{i}'` becomes an association list keyed by the sector
index `i` itself (the tagging `i ↦ 'setor_i'` is injective, so the two key
spaces are in bijection); entries appear in increasing `i`, exactly for the
sectors passing the `> 10` test. -/
def ajustarParams (fitW : List ℚ → ℚ × ℚ) (dadosAll : List Record)
    (estacao : Option String) (setores : ℕ) : List (ℕ × WParams) :=
  let dados := filtrarEstacao dadosAll estacao
  (List.range setores).filterMap fun i =>
    (setorParam fitW dados setores i).map fun w => (i, w)

theorem lookup_append {β : Type _} (l₁ l₂ : List (ℕ × β)) (i : ℕ) :
    List.lookup i (l₁ ++ l₂) =
      match List.lookup i l₁ with
      | some b => some b
      | none => List.lookup i l₂ := by
  induction l₁ with
  | nil => simp [List.lookup]
  | cons p l ih =>
    rcases p with ⟨k, b⟩
    cases hik : (i == k) with
    | true => simp [List.lookup, hik]
    | false =>
      simp only [List.cons_append, List.lookup, hik]
      exact ih

theorem lookup_filterMap_range {β : Type _} (g : ℕ → Option β) (n i : ℕ) :
    List.lookup i ((List.range n).filterMap fun j => (g j).map fun b => (j, b)) =
      if i < n then g i else none := by
  induction n with
  | zero => simp
  | succ n ih =>
    have htail : List.lookup i (List.filterMap
        (fun j => (g j).map fun b => (j, b)) [n]) =
        if i = n then g n else none := by
      by_cases hin : i = n
      · subst hin
        cases hgn : g i with
        | some c => simp [List.filterMap, hgn, List.lookup]
        | none => simp [List.filterMap, hgn, List.lookup]
      · have hne : (i == n) = false := beq_eq_false_iff_ne.mpr hin
        cases hgn : g n with
        | some c => simp [List.filterMap, hgn, List.lookup, hne, hin]
        | none => simp [List.filterMap, hgn, List.lookup, hin]
    rw [List.range_succ, List.filterMap_append, lookup_append, ih, htail]
    by_cases hin : i < n
    · rw [if_pos hin, if_pos (show i < n + 1 by omega)]
      cases hgi : g i with
      | some b => rfl
      | none => simp [show ¬i = n by omega]
    · by_cases hieq : i = n
      · subst hieq
        rw [if_neg hin, if_pos (show i < i + 1 by omega)]
        simp
      · rw [if_neg hin, if_neg (show ¬i < n + 1 by omega)]
        simp [hieq]

/-- **C2.**  A sector index `i < setores` is present in the fit dictionary
if and only if its sector holds strictly more than 10 samples; when present
its entry carries the abstractly fitted `(k, c)` and
`frequencia = sector count / filtered total`; with exactly 10 samples the
key is absent (no zero-filled entry). -/
theorem ajustar_sector_threshold (fitW : List ℚ → ℚ × ℚ)
    (dadosAll : List Record) (estacao : Option String) (setores i : ℕ)
    (hi : i < setores) :
    (List.lookup i (ajustarParams fitW dadosAll estacao setores) =
      if 10 < (setorRecs (filtrarEstacao dadosAll estacao) setores i).length then
        some { k := (fitW ((setorRecs (filtrarEstacao dadosAll estacao) setores i).filterMap
                  fun r => r.velocidade)).1
               c := (fitW ((setorRecs (filtrarEstacao dadosAll estacao) setores i).filterMap
                  fun r => r.velocidade)).2
               frequencia := ((setorRecs (filtrarEstacao dadosAll estacao) setores i).length : ℚ) /
                  ((filtrarEstacao dadosAll estacao).length : ℚ) }
      else none) ∧
    ((∃ p, List.lookup i (ajustarParams fitW dadosAll estacao setores) = some p) ↔
      10 < (setorRecs (filtrarEstacao dadosAll estacao) setores i).length) := by
  have h1 : List.lookup i (ajustarParams fitW dadosAll estacao setores) =
      setorParam fitW (filtrarEstacao dadosAll estacao) setores i := by
    simp only [ajustarParams]
    rw [lookup_filterMap_range, if_pos hi]
  refine ⟨?_, ?_⟩
  · rw [h1]
    simp only [setorParam]
  · rw [h1]
    simp only [setorParam]
    by_cases hc : 10 < (setorRecs (filtrarEstacao dadosAll estacao) setores i).length
    · simp [hc]
    · simp [hc]

theorem filter_replicate {α : Type _} (p : α → Bool) (n : ℕ) (a : α) :
    List.filter p (List.replicate n a) =
      if p a then List.replicate n a else [] := by
  induction n with
  | zero => simp
  | succ n ih =>
    rw [List.replicate_succ, List.filter_cons, ih]
    by_cases hp : p a = true
    · simp [hp, List.replicate_succ]
    · simp [hp]

/-- Witness for C2 with the boundary counts: 11 samples in sector 0 of 4
(fitted, frequency `11/21`), exactly 10 samples in sector 1 (omitted). -/
theorem ajustar_sector_threshold_witness :
    ((0 : ℕ) < 4) ∧ ((1 : ℕ) < 4) ∧
    List.lookup 0 (ajustarParams (fun _ => (2, 8))
        (List.replicate 11 (⟨"A", some 5, some 3, none⟩ : Record) ++
         List.replicate 10 (⟨"A", some 100, some 4, none⟩ : Record))
        (some "A") 4) =
      some { k := 2, c := 8, frequencia := 11 / 21 } ∧
    List.lookup 1 (ajustarParams (fun _ => (2, 8))
        (List.replicate 11 (⟨"A", some 5, some 3, none⟩ : Record) ++
         List.replicate 10 (⟨"A", some 100, some 4, none⟩ : Record))
        (some "A") 4) = none := by
  have hr0 : pertenceSetorRec 4 0 ⟨"A", some 5, some 3, none⟩ = true := by
    norm_num [pertenceSetorRec, pertenceSetor, limites]
  have hr0' : pertenceSetorRec 4 0 ⟨"A", some 100, some 4, none⟩ = false := by
    norm_num [pertenceSetorRec, pertenceSetor, limites]
  have hr1 : pertenceSetorRec 4 1 ⟨"A", some 5, some 3, none⟩ = false := by
    norm_num [pertenceSetorRec, pertenceSetor, limites]
  have hr1' : pertenceSetorRec 4 1 ⟨"A", some 100, some 4, none⟩ = true := by
    norm_num [pertenceSetorRec, pertenceSetor, limites]
  have hfilt : filtrarEstacao
      (List.replicate 11 (⟨"A", some 5, some 3, none⟩ : Record) ++
       List.replicate 10 (⟨"A", some 100, some 4, none⟩ : Record)) (some "A") =
      (List.replicate 11 (⟨"A", some 5, some 3, none⟩ : Record) ++
       List.replicate 10 (⟨"A", some 100, some 4, none⟩ : Record)) := by
    simp [filtrarEstacao, List.filter_append, filter_replicate]
  refine ⟨by norm_num, by norm_num, ?_, ?_⟩
  · rw [(ajustar_sector_threshold (fun _ => (2, 8)) _ (some "A") 4 0 (by norm_num)).1,
      hfilt]
    rw [show setorRecs
        (List.replicate 11 (⟨"A", some 5, some 3, none⟩ : Record) ++
         List.replicate 10 (⟨"A", some 100, some 4, none⟩ : Record)) 4 0 =
        List.replicate 11 (⟨"A", some 5, some 3, none⟩ : Record) by
      simp [setorRecs, List.filter_append, filter_replicate, hr0, hr0']]
    norm_num
  · rw [(ajustar_sector_threshold (fun _ => (2, 8)) _ (some "A") 4 1 (by norm_num)).1,
      hfilt]
    rw [show setorRecs
        (List.replicate 11 (⟨"A", some 5, some 3, none⟩ : Record) ++
         List.replicate 10 (⟨"A", some 100, some 4, none⟩ : Record)) 4 1 =
        List.replicate 10 (⟨"A", some 100, some 4, none⟩ : Record) by
      simp [setorRecs, List.filter_append, filter_replicate, hr1, hr1']]
    norm_num

/-! ## Analyzer state, fit cache and power estimation -/

/-- The `WindAnalyzer` instance state: prepared data, station list and the
Weibull-parameter cache `parametros_weibull`.  The Python dict cache becomes
an association list where a new binding is consed in front (`List.lookup`
finds the most recent binding, matching dict overwrite). -/
structure Analyzer where
  dados : List Record
  estacoes : List String
  parametros_weibull : List (String × List (ℕ × WParams))

/-- `WindAnalyzer.__init__`: `estacoes` is read off the raw data *before*
preprocessing (`unique().tolist()`; only membership matters to the claims,
so the dedup order is immaterial), the data is preprocessed once, and the
cache starts empty. -/
def windAnalyzerInit (raw : List Record) : Analyzer :=
  { dados := preprocessData raw
    estacoes := (raw.map fun r => r.estacao).dedup
    parametros_weibull := [] }

/-- `ajustar_distribuicao_weibull` as a state transformer: returns the
parameter dictionary and stores it in the cache under the key `estacao` —
or under `'global'` when `estacao` is `None` or the empty string, which is
falsy in Python (`chave = estacao if estacao else 'global'`). -/
def ajustar_distribuicao_weibull (fitW : List ℚ → ℚ × ℚ) (A : Analyzer)
    (estacao : Option String) (setores : ℕ) :
    List (ℕ × WParams) × Analyzer :=
  let parametros := ajustarParams fitW A.dados estacao setores
  let chave : String :=
    match estacao with
    | some s => if s = "" then "global" else s
    | none => "global"
  (parametros,
    { A with parametros_weibull := (chave, parametros) :: A.parametros_weibull })

/-- The accumulation loop of `calcular_potencial_eolico`:
`potencia_total += 0.5 * densidade_ar * c**3 * (1 + 3/k) * frequencia`,
starting from `0.0`. -/
def potenciaTotal (parametros : List (ℕ × WParams)) (densidade_ar : ℚ) : ℚ :=
  parametros.foldl
    (fun potencia_total kv =>
      potencia_total +
        0.5 * densidade_ar * kv.2.c ^ 3 * (1 + 3 / kv.2.k) * kv.2.frequencia)
    0

/-- `calcular_potencial_eolico`: on a cache miss the fit is triggered lazily
(default 16 sectors), mutating the cache.  The `none` first component models
the `KeyError` the source raises when the lazy fit stored the parameters
under a different key than it then reads (only reachable for
`estacao = ""`, whose fit lands under `'global'`). -/
def calcular_potencial_eolico (fitW : List ℚ → ℚ × ℚ) (A : Analyzer)
    (estacao : String) (densidade_ar : ℚ) : Option ℚ × Analyzer :=
  match List.lookup estacao A.parametros_weibull with
  | some parametros => (some (potenciaTotal parametros densidade_ar), A)
  | none =>
    let A1 := (ajustar_distribuicao_weibull fitW A (some estacao) 16).2
    match List.lookup estacao A1.parametros_weibull with
    | some parametros => (some (potenciaTotal parametros densidade_ar), A1)
    | none => (none, A1)

theorem foldl_add_map {α : Type _} (f : α → ℚ) (l : List α) (a : ℚ) :
    l.foldl (fun acc x => acc + f x) a = a + (l.map f).sum := by
  induction l generalizing a with
  | nil => simp
  | cons x l ih => simp [ih, add_assoc]

theorem potenciaTotal_eq_sum (parametros : List (ℕ × WParams))
    (densidade_ar : ℚ) :
    potenciaTotal parametros densidade_ar =
      (parametros.map fun kv =>
        0.5 * densidade_ar * kv.2.c ^ 3 * (1 + 3 / kv.2.k) * kv.2.frequencia).sum := by
  unfold potenciaTotal
  rw [foldl_add_map]
  simp

theorem calcular_potencial_cache_hit (fitW : List ℚ → ℚ × ℚ) (A : Analyzer)
    (estacao : String) (densidade_ar : ℚ) (parametros : List (ℕ × WParams))
    (hcache : List.lookup estacao A.parametros_weibull = some parametros) :
    (calcular_potencial_eolico fitW A estacao densidade_ar).1 =
      some (potenciaTotal parametros densidade_ar) := by
  unfold calcular_potencial_eolico
  rw [hcache]

/-- **C3.**  With a fit cached for the station, the power estimate is the
sum over the cached sectors of
`0.5 * densidade_ar * c^3 * (1 + 3/k) * frequencia` — the `(1 + 3/k)`
approximation, not the gamma function — and it is `0` when the station has
zero fitted sectors. -/
theorem calcular_potencial_spec (fitW : List ℚ → ℚ × ℚ) (A : Analyzer)
    (estacao : String) (densidade_ar : ℚ) (parametros : List (ℕ × WParams))
    (hcache : List.lookup estacao A.parametros_weibull = some parametros) :
    ((calcular_potencial_eolico fitW A estacao densidade_ar).1 =
      some ((parametros.map fun kv =>
        0.5 * densidade_ar * kv.2.c ^ 3 * (1 + 3 / kv.2.k) * kv.2.frequencia).sum)) ∧
    (parametros = [] →
      (calcular_potencial_eolico fitW A estacao densidade_ar).1 = some 0) := by
  have h1 := calcular_potencial_cache_hit fitW A estacao densidade_ar parametros hcache
  refine ⟨by rw [h1, potenciaTotal_eq_sum], ?_⟩
  rintro rfl
  rw [h1]
  simp [potenciaTotal]

/-- Witness for C3: a one-sector cache (`k = 2`, `c = 8`, frequency 1) and
an empty cache, both under station `A`. -/
theorem calcular_potencial_spec_witness :
    (List.lookup "A"
        ([("A", [((0 : ℕ), ({ k := 2, c := 8, frequencia := 1 } : WParams))])] :
          List (String × List (ℕ × WParams))) =
      some [((0 : ℕ), ({ k := 2, c := 8, frequencia := 1 } : WParams))]) ∧
    ((calcular_potencial_eolico (fun _ => (2, 8))
        ⟨[], ["A"], [("A", [(0, { k := 2, c := 8, frequencia := 1 })])]⟩
        "A" 1).1 =
      some (([((0 : ℕ), ({ k := 2, c := 8, frequencia := 1 } : WParams))].map
        fun kv =>
          0.5 * (1 : ℚ) * kv.2.c ^ 3 * (1 + 3 / kv.2.k) * kv.2.frequencia).sum)) ∧
    (List.lookup "B"
        ([("B", [])] : List (String × List (ℕ × WParams))) = some []) ∧
    ((calcular_potencial_eolico (fun _ => (2, 8)) ⟨[], ["B"], [("B", [])]⟩
        "B" 1).1 = some 0) := by
  have hc1 : List.lookup "A"
      ([("A", [((0 : ℕ), ({ k := 2, c := 8, frequencia := 1 } : WParams))])] :
        List (String × List (ℕ × WParams))) =
      some [((0 : ℕ), ({ k := 2, c := 8, frequencia := 1 } : WParams))] := by
    simp [List.lookup]
  have hc2 : List.lookup "B"
      ([("B", [])] : List (String × List (ℕ × WParams))) = some [] := by
    simp [List.lookup]
  exact ⟨hc1,
    (calcular_potencial_spec (fun _ => (2, 8)) _ "A" 1 _ hc1).1,
    hc2,
    (calcular_potencial_spec (fun _ => (2, 8)) _ "B" 1 _ hc2).2 rfl⟩

/-- **C9.**  If every cached sector has strictly positive `k` and `c`,
non-negative frequencies summing to at most 1, and the air density is
non-negative, the power estimate is non-negative. -/
theorem calcular_potencial_nonneg (fitW : List ℚ → ℚ × ℚ) (A : Analyzer)
    (estacao : String) (densidade_ar : ℚ) (parametros : List (ℕ × WParams))
    (hcache : List.lookup estacao A.parametros_weibull = some parametros)
    (hpos : ∀ kv ∈ parametros, 0 < kv.2.k ∧ 0 < kv.2.c ∧ 0 ≤ kv.2.frequencia)
    (hsum : (parametros.map fun kv => kv.2.frequencia).sum ≤ 1)
    (hdens : 0 ≤ densidade_ar) :
    ∃ p, (calcular_potencial_eolico fitW A estacao densidade_ar).1 = some p ∧
      0 ≤ p := by
  refine ⟨potenciaTotal parametros densidade_ar,
    calcular_potencial_cache_hit fitW A estacao densidade_ar parametros hcache, ?_⟩
  rw [potenciaTotal_eq_sum]
  apply List.sum_nonneg
  intro x hx
  rw [List.mem_map] at hx
  obtain ⟨kv, hkv, rfl⟩ := hx
  obtain ⟨hk, hc, hf⟩ := hpos kv hkv
  have h3k : 0 ≤ 1 + 3 / kv.2.k := by
    have : 0 ≤ 3 / kv.2.k := div_nonneg (by norm_num) hk.le
    linarith
  have hc3 : 0 ≤ kv.2.c ^ 3 := by positivity
  exact mul_nonneg (mul_nonneg (mul_nonneg (by linarith) hc3) h3k) hf

/-- Witness for C9: one cached sector with `k = 2`, `c = 8`, frequency
`1/2`, air density `1.225`. -/
theorem calcular_potencial_nonneg_witness :
    (List.lookup "A"
        ([("A", [((0 : ℕ), ({ k := 2, c := 8, frequencia := 1 / 2 } : WParams))])] :
          List (String × List (ℕ × WParams))) =
      some [((0 : ℕ), ({ k := 2, c := 8, frequencia := 1 / 2 } : WParams))]) ∧
    ∃ p, (calcular_potencial_eolico (fun _ => (2, 8))
        ⟨[], ["A"], [("A", [(0, { k := 2, c := 8, frequencia := 1 / 2 })])]⟩
        "A" 1.225).1 = some p ∧ 0 ≤ p := by
  have hc : List.lookup "A"
      ([("A", [((0 : ℕ), ({ k := 2, c := 8, frequencia := 1 / 2 } : WParams))])] :
        List (String × List (ℕ × WParams))) =
      some [((0 : ℕ), ({ k := 2, c := 8, frequencia := 1 / 2 } : WParams))] := by
    simp [List.lookup]
  refine ⟨hc, calcular_potencial_nonneg (fun _ => (2, 8)) _ "A" 1.225 _ hc ?_ ?_ ?_⟩
  · rintro kv hkv
    rw [List.mem_singleton] at hkv
    subst hkv
    refine ⟨by norm_num, by norm_num, by norm_num⟩
  · simp
    norm_num
  · norm_num

/-! ## Report generation (`gerar_relatorio`) -/

/-- `_classificar_potencial`. -/
def classificar_potencial (potencial : ℚ) : String :=
  if 500 < potencial then "Excepcional (Classe 7)"
  else if 400 < potencial then "Excelente (Classe 6)"
  else if 300 < potencial then "Bom (Classe 5)"
  else if 200 < potencial then "Moderado (Classe 4)"
  else "Limitado"

/-- The recommendation block appended to the report. -/
def recomendacoes (potencial : ℚ) : String :=
  if 400 < potencial then
    "- Local com excelente potencial eólico, recomendado para instalação de turbinas."
  else if 300 < potencial then
    "- Local com bom potencial eólico, viável para instalação com turbinas adequadas."
  else
    "- Local com potencial eólico limitado, recomenda-se estudo mais detalhado."

/-- The analytic content of the generated report; textual layout, the
period line (timestamps) and file persistence are external formatting and
not modelled. -/
structure Relatorio where
  estatisticas : Estatisticas
  parametros : List (ℕ × WParams)
  potencial : ℚ
  classificacao : String
  recomendacao : String

/-- The error exits of `gerar_relatorio`: the explicit `ValueError` of the
station validation, and the `KeyError` of a cache read under a mismatched
key (unreachable for non-empty station names). -/
inductive ReportError where
  | valueError (msg : String)
  | keyError (chave : String)
deriving DecidableEq

/-- `gerar_relatorio`: validate the station against `estacoes` first
(raising `ValueError` naming the station), then chain
`calcular_estatisticas`, `ajustar_distribuicao_weibull` and
`calcular_potencial_eolico` and read the cached parameters back for the
per-sector report section, returning the assembled report content and the
mutated analyzer. -/
noncomputable def gerar_relatorio (fitW : List ℚ → ℚ × ℚ) (A : Analyzer)
    (estacao : String) : Except ReportError (Relatorio × Analyzer) :=
  if estacao ∉ A.estacoes then
    .error (.valueError
      ("A estação " ++ estacao ++ " não foi encontrada na base de dados."))
  else
    let estatisticas := calcular_estatisticas A.dados (some estacao)
    let A1 := (ajustar_distribuicao_weibull fitW A (some estacao) 16).2
    let pot := calcular_potencial_eolico fitW A1 estacao 1.225
    match pot.1 with
    | none => .error (.keyError estacao)
    | some potencial =>
      match List.lookup estacao pot.2.parametros_weibull with
      | none => .error (.keyError estacao)
      | some parametros =>
        .ok ({ estatisticas := estatisticas
               parametros := parametros
               potencial := potencial
               classificacao := classificar_potencial potencial
               recomendacao := recomendacoes potencial }, pot.2)

/-- **C8.**  For a station not among the analyzer's known stations, report
generation fails with the validation error naming the station — and with no
other error type, since the check runs first; for a known station the
validation check never fails (no `valueError` is possible). -/
theorem gerar_relatorio_validation (fitW : List ℚ → ℚ × ℚ) (A : Analyzer)
    (estacao : String) :
    (estacao ∉ A.estacoes →
      gerar_relatorio fitW A estacao =
        .error (.valueError
          ("A estação " ++ estacao ++ " não foi encontrada na base de dados."))) ∧
    (estacao ∈ A.estacoes →
      ∀ msg, gerar_relatorio fitW A estacao ≠ .error (.valueError msg)) := by
  constructor
  · intro h
    unfold gerar_relatorio
    rw [if_pos h]
  · intro h msg
    unfold gerar_relatorio
    rw [if_neg (by simpa using h)]
    dsimp only
    split
    · simp
    · split
      · simp
      · simp

/-- Witness for C8: a dataset holding only station `B`; `A` is unknown and
rejected, `B` is known and never produces the validation error. -/
theorem gerar_relatorio_validation_witness :
    ("A" ∉ (windAnalyzerInit [⟨"B", some 10, some 2, none⟩]).estacoes) ∧
    gerar_relatorio (fun _ => (2, 8))
        (windAnalyzerInit [⟨"B", some 10, some 2, none⟩]) "A" =
      .error (.valueError "A estação A não foi encontrada na base de dados.") ∧
    ("B" ∈ (windAnalyzerInit [⟨"B", some 10, some 2, none⟩]).estacoes) ∧
    ∀ msg, gerar_relatorio (fun _ => (2, 8))
        (windAnalyzerInit [⟨"B", some 10, some 2, none⟩]) "B" ≠
      .error (.valueError msg) := by
  have hA : "A" ∉ (windAnalyzerInit [⟨"B", some 10, some 2, none⟩]).estacoes := by
    simp [windAnalyzerInit]
  have hB : "B" ∈ (windAnalyzerInit [⟨"B", some 10, some 2, none⟩]).estacoes := by
    simp [windAnalyzerInit]
  refine ⟨hA, ?_, hB,
    (gerar_relatorio_validation (fun _ => (2, 8)) _ "B").2 hB⟩
  have h := (gerar_relatorio_validation (fun _ => (2, 8))
    (windAnalyzerInit [⟨"B", some 10, some 2, none⟩]) "A").1 hA
  simpa using h

/-! ## Shear analysis (`analisar_cissalhamento`) -/

/-- Extended value of a float computation over exact rationals: finite,
`±inf` or NaN. -/
inductive ExtQ where
  | fin (q : ℚ)
  | pinf
  | ninf
  | nan
deriving DecidableEq, Repr

/-- numpy float64 division `v1 / v0` of the two mean speeds: NaN
propagates, and a zero denominator yields `±inf` (or NaN for `0/0`) with a
runtime warning — not an exception, the operands being numpy scalars. -/
def divMeans (v1 v0 : Option ℚ) : ExtQ :=
  match v1, v0 with
  | none, _ => .nan
  | _, none => .nan
  | some a, some b =>
    if b = 0 then
      if a = 0 then .nan else if 0 < a then .pinf else .ninf
    else .fin (a / b)

/-- Symbolic value of `np.log` on an extended rational: `lg q` stands for
the real `Real.log q` of a positive rational `q`; `log 0 = -inf`, `log` of
a negative number or of NaN is NaN, `log inf = inf` (warnings, never
exceptions). -/
inductive LogVal where
  | lg (q : ℚ)
  | pinf
  | ninf
  | nan
deriving DecidableEq, Repr

def elog : ExtQ → LogVal
  | .fin q => if 0 < q then .lg q else if q = 0 then .ninf else .nan
  | .pinf => .pinf
  | .ninf => .nan
  | .nan => .nan

/-- The float value of the shear exponent: finite, `±inf` or NaN. -/
inductive ExtR where
  | fin (x : ℝ)
  | pinf
  | ninf
  | nan

/-- float64 division of two `np.log` results, with the IEEE-754 special
cases (`x / ±0.0` is a signed infinity, `0/0` and `inf/inf` are NaN); the
sign of `log q` is read off `q` against 1, and `log 1 = +0.0`. -/
noncomputable def divLogs : LogVal → LogVal → ExtR
  | .nan, _ => .nan
  | _, .nan => .nan
  | .lg a, .lg b =>
    if b = 1 then
      if a = 1 then .nan else if 1 < a then .pinf else .ninf
    else .fin (Real.log a / Real.log b)
  | .lg _, .pinf => .fin 0
  | .lg _, .ninf => .fin 0
  | .pinf, .lg b => if 1 ≤ b then .pinf else .ninf
  | .ninf, .lg b => if 1 ≤ b then .ninf else .pinf
  | .pinf, .pinf => .nan
  | .pinf, .ninf => .nan
  | .ninf, .pinf => .nan
  | .ninf, .ninf => .nan

/-- Mean speed of the records of `estacao` measured at exactly height
`altura` (equality match, null heights never match); `none` is the NaN of
an empty mean. -/
def meanAt (dados : List Record) (estacao : String) (altura : ℚ) : Option ℚ :=
  meanQ ((dados.filter fun r =>
    decide (r.estacao = estacao) && decide (r.altura = some altura)).filterMap
    fun r => r.velocidade)

/-- The dictionary returned by `analisar_cissalhamento`: either the
exponent and vertical profile, or only the `'erro'` entry. -/
inductive ShearResult where
  | ok (expoente : ExtR) (perfil : List (ℚ × Option ℚ))
  | erro (msg : String)

def erroCissalhamento : String :=
  "Não foi possível calcular o cisalhamento - dados insuficientes"

/-- `analisar_cissalhamento`: mean speed per requested height, then
`alpha = np.log(v[1]/v[0]) / np.log(alturas[1]/alturas[0])` inside a
`try`.  The `except` branch is reached only by a genuine exception:
`IndexError` on `alturas[1]` when fewer than two heights are given, or
`ZeroDivisionError` from the Python-float quotient `alturas[1]/alturas[0]`
when `alturas[0] == 0`; non-finite means merely propagate NaN/inf through
the numpy scalar operations without raising. -/
noncomputable def analisar_cissalhamento (dados : List Record)
    (estacao : String) (alturas : List ℚ) : ShearResult :=
  let velocidades_medias := alturas.map (meanAt dados estacao)
  match alturas, velocidades_medias with
  | a0 :: a1 :: _, v0 :: v1 :: _ =>
    if a0 = 0 then .erro erroCissalhamento
    else
      .ok (divLogs (elog (divMeans v1 v0)) (elog (.fin (a1 / a0))))
        (alturas.zip velocidades_medias)
  | _, _ => .erro erroCissalhamento

/-- **C5.**  With positive mean speeds `u` (at the first height) and `w`
(at the second), positive heights and a height ratio different from 1, the
shear analysis returns
`alpha = log(w/u) / log(a1/a0)` computed from the first two heights only —
the remaining heights enter the vertical profile but not the exponent. -/
theorem analisar_cissalhamento_alpha (dados : List Record) (estacao : String)
    (a0 a1 : ℚ) (rest : List ℚ) (u w : ℚ)
    (hu : meanAt dados estacao a0 = some u)
    (hw : meanAt dados estacao a1 = some w)
    (hupos : 0 < u) (hwpos : 0 < w)
    (ha0 : 0 < a0) (ha1 : 0 < a1) (hratio : a1 / a0 ≠ 1) :
    analisar_cissalhamento dados estacao (a0 :: a1 :: rest) =
      .ok (.fin (Real.log ((w / u : ℚ)) / Real.log ((a1 / a0 : ℚ))))
        ((a0 :: a1 :: rest).zip
          ((a0 :: a1 :: rest).map (meanAt dados estacao))) := by
  have hune : u ≠ 0 := ne_of_gt hupos
  have hdm : divMeans (some w) (some u) = .fin (w / u) := by
    simp [divMeans, hune]
  have hel1 : elog (.fin (w / u)) = .lg (w / u) := by
    simp [elog, if_pos (div_pos hwpos hupos)]
  have hel2 : elog (.fin (a1 / a0)) = .lg (a1 / a0) := by
    simp [elog, if_pos (div_pos ha1 ha0)]
  have hdl : divLogs (.lg (w / u)) (.lg (a1 / a0)) =
      .fin (Real.log ((w / u : ℚ)) / Real.log ((a1 / a0 : ℚ))) := by
    simp [divLogs, hratio]
  simp only [analisar_cissalhamento, List.map_cons]
  rw [hu, hw]
  rw [if_neg (ne_of_gt ha0)]
  rw [hdm, hel1, hel2, hdl]

/-- Witness for C5: heights `[10, 100]` with mean speeds `[5, 7]` yield
`alpha = log(7/5) / log(10)` (`log(100/10) = log 10`, numerically 0.146). -/
theorem analisar_cissalhamento_alpha_witness :
    (meanAt [⟨"A", none, some 5, some 10⟩, ⟨"A", none, some 7, some 100⟩]
        "A" 10 = some 5) ∧
    (meanAt [⟨"A", none, some 5, some 10⟩, ⟨"A", none, some 7, some 100⟩]
        "A" 100 = some 7) ∧
    ((100 : ℚ) / 10 ≠ 1) ∧
    analisar_cissalhamento
        [⟨"A", none, some 5, some 10⟩, ⟨"A", none, some 7, some 100⟩]
        "A" [10, 100] =
      .ok (.fin (Real.log (((7 : ℚ) / 5 : ℚ)) / Real.log (((100 : ℚ) / 10 : ℚ))))
        (([(10 : ℚ), 100]).zip (([(10 : ℚ), 100]).map
          (meanAt [⟨"A", none, some 5, some 10⟩, ⟨"A", none, some 7, some 100⟩]
            "A"))) := by
  have h10 : meanAt [⟨"A", none, some 5, some 10⟩, ⟨"A", none, some 7, some 100⟩]
      "A" 10 = some 5 := by
    norm_num [meanAt, meanQ, List.filterMap_cons, List.filterMap_nil]
  have h100 : meanAt [⟨"A", none, some 5, some 10⟩, ⟨"A", none, some 7, some 100⟩]
      "A" 100 = some 7 := by
    norm_num [meanAt, meanQ, List.filterMap_cons, List.filterMap_nil]
  exact ⟨h10, h100, by norm_num,
    analisar_cissalhamento_alpha _ "A" 10 100 [] 5 7 h10 h100
      (by norm_num) (by norm_num) (by norm_num) (by norm_num) (by norm_num)⟩

/-- **C6, counterexample.**  A height with no matching records does *not*
produce the error variant: the empty mean is NaN, which propagates through
the numpy scalar quotient and `np.log` without raising, so the function
returns a normal result whose exponent is NaN and whose profile carries the
NaN mean — not the `'erro'` dictionary the claim requires. -/
theorem analisar_cissalhamento_nan_counterexample :
    analisar_cissalhamento [⟨"A", none, some 5, some 10⟩] "A" [10, 100] =
      .ok .nan [((10 : ℚ), some (5 : ℚ)), ((100 : ℚ), none)] ∧
    ∀ msg, analisar_cissalhamento [⟨"A", none, some 5, some 10⟩] "A" [10, 100] ≠
      .erro msg := by
  have hm10 : meanAt [⟨"A", none, some 5, some 10⟩] "A" 10 = some 5 := by
    norm_num [meanAt, meanQ, List.filterMap_cons, List.filterMap_nil]
  have hm100 : meanAt [⟨"A", none, some 5, some 10⟩] "A" 100 = none := by
    norm_num [meanAt, meanQ, List.filterMap_cons, List.filterMap_nil]
  have heq : analisar_cissalhamento [⟨"A", none, some 5, some 10⟩] "A" [10, 100] =
      .ok .nan [((10 : ℚ), some (5 : ℚ)), ((100 : ℚ), none)] := by
    simp only [analisar_cissalhamento, List.map_cons, List.map_nil, hm10, hm100]
    rw [if_neg (by norm_num : ¬(10 : ℚ) = 0)]
    simp [divMeans, elog, divLogs]
  refine ⟨heq, fun msg h => ?_⟩
  rw [heq] at h
  exact ShearResult.noConfusion h

/-- **C6, amended.**  The error variant (with its fixed descriptive
message) is returned exactly when an exception fires inside the `try`:
fewer than two heights, or a first height of zero; every other input —
including missing-height combinations with NaN means, zero means and
non-positive log arguments — yields the normal variant (possibly with a
non-finite exponent), and the function never raises (it is total). -/
theorem analisar_cissalhamento_erro_iff (dados : List Record)
    (estacao : String) (alturas : List ℚ) :
    (analisar_cissalhamento dados estacao alturas = .erro erroCissalhamento ↔
      alturas.length < 2 ∨ alturas.head? = some 0) ∧
    (∀ msg, analisar_cissalhamento dados estacao alturas = .erro msg →
      msg = erroCissalhamento) := by
  obtain _ | ⟨a0, _ | ⟨a1, rest⟩⟩ := alturas
  · refine ⟨by simp [analisar_cissalhamento], fun msg h => ?_⟩
    simp only [analisar_cissalhamento, List.map_nil] at h
    exact (ShearResult.erro.inj h).symm
  · refine ⟨by simp [analisar_cissalhamento], fun msg h => ?_⟩
    simp only [analisar_cissalhamento, List.map_cons, List.map_nil] at h
    exact (ShearResult.erro.inj h).symm
  · by_cases h0 : a0 = 0
    · subst h0
      constructor
      · simp [analisar_cissalhamento]
      · intro msg h
        simp only [analisar_cissalhamento, List.map_cons, if_true] at h
        exact (ShearResult.erro.inj h).symm
    · constructor
      · constructor
        · intro h
          simp only [analisar_cissalhamento, List.map_cons] at h
          rw [if_neg h0] at h
          exact ShearResult.noConfusion h
        · intro h
          rcases h with h | h
          · simp at h
            omega
          · simp only [List.head?_cons, Option.some.injEq] at h
            exact absurd h h0
      · intro msg h
        simp only [analisar_cissalhamento, List.map_cons] at h
        rw [if_neg h0] at h
        exact ShearResult.noConfusion h

/-- Witness for the amended C6 at the empty height list: the `IndexError`
path produces exactly the fixed error message. -/
theorem analisar_cissalhamento_erro_iff_witness :
    analisar_cissalhamento [] "A" [] = .erro erroCissalhamento ∧
    erroCissalhamento = erroCissalhamento := by
  have h := analisar_cissalhamento_erro_iff [] "A" []
  have he : analisar_cissalhamento [] "A" [] = .erro erroCissalhamento :=
    h.1.mpr (Or.inl (by norm_num))
  exact ⟨he, h.2 erroCissalhamento he⟩

end WindRose
